import Mathlib

/-!
# Verification of the SSE response listener (`internal/sse/listener.go`)

Shallow embedding of the response-listening subsystem of the `afk` CLI.
The Go source is embedded as follows:

* Go strings handled by the reader loop become `List Char`; the stdlib
  helpers `strings.HasPrefix`, `strings.TrimPrefix`, `strings.TrimSpace`
  are defined below over `List Char` (TrimSpace restricted to ASCII
  whitespace, which is all the protocol uses).
* `encoding/json`'s `json.Unmarshal` into an `Event` is external library
  code, so it is an oracle parameter `u : Line → Option Event`
  (`none` = the `data:` payload is malformed JSON).
* The reader goroutine (lines 114-153 of listener.go) becomes the pure
  functions `readLines` / `readerOutcome` over the list of lines the
  scanner produced and an optional scanner error.
* The `select` wait loop (lines 156-181) becomes `waitLoop`, driven by a
  schedule: the list of channel receives in the order the select picked
  them.  Callback invocations are recorded in the result rather than
  performed; a callback value is modelled by whether it is non-nil.
  Go's `select` chooses uniformly at random among the ready cases, so a
  schedule paired with per-step ready sets (`SelectStep`) models one
  admissible execution; `validExec` states the channel-semantics
  constraints (a reminder tick can only be ready when the ticker was
  armed, the reader channels only ever carry the reader's one message).
* `time.Duration` is int64 nanoseconds, embedded as `Int`.
-/

/-- One line of the SSE byte stream, as a list of characters. -/
abbrev Line := List Char

/-- Go `strings.HasPrefix s p`. -/
def hasPrefix (s p : Line) : Bool := p.isPrefixOf s

/-- Go `strings.TrimPrefix s p`: drops `p` from the front when present. -/
def trimPrefix (s p : Line) : Line :=
  if p.isPrefixOf s then s.drop p.length else s

/-- ASCII whitespace, the fragment of Go `unicode.IsSpace` the protocol uses. -/
def isSpaceChar (c : Char) : Bool :=
  c == ' ' || c == '\t' || c == '\n' || c == '\r'

/-- Go `strings.TrimSpace` (restricted to ASCII whitespace). -/
def trimSpace (s : Line) : Line :=
  ((s.dropWhile isSpaceChar).reverse.dropWhile isSpaceChar).reverse

/-- The decoded SSE event record (struct `Event` of listener.go; the Go
field `Type` is spelled `type` because `Type` is a Lean keyword). -/
structure Event where
  type : String
  SessionID : String
  From : String
  Content : String
  Timestamp : Int
deriving DecidableEq, Repr

/-- struct `ListenOptions` of listener.go.  The two callback fields are
modelled by whether they are non-nil; invocations are recorded in the
`ListenResult`. -/
structure ListenOptions where
  Timeout : Int
  ReminderInterval : Int
  OnEvent : Bool
  OnReminder : Bool
deriving DecidableEq, Repr

/-- Condition `event.Type == "message" && event.Content != ""` of
listener.go line 141, promoting a decoded record to a deliverable
result. -/
def deliverable (e : Event) : Bool :=
  e.type == "message" && e.Content != ""

/-- The message the reader goroutine sends: on `eventChan` (a deliverable
event) or on `errChan` (a scanner error or the connection-closed error). -/
inductive ReaderMsg where
  | event : Event → ReaderMsg
  | error : String → ReaderMsg
deriving DecidableEq, Repr

/-- The scanner loop of the reader goroutine (listener.go lines 116-146):
skips blanks, comments and the `connected` event line, decodes `data:`
payloads with the unmarshal oracle `u`, and returns the first deliverable
record, or `none` when the line stream is exhausted. -/
def readLines (u : Line → Option Event) : List Line → Option Event
  | [] => none
  | line :: rest =>
    if line == [] || hasPrefix line ":".toList then
      readLines u rest
    else if hasPrefix line "event:".toList &&
        (trimSpace (trimPrefix line "event:".toList) == "connected".toList) then
      readLines u rest
    else if hasPrefix line "data:".toList then
      match u (trimSpace (trimPrefix line "data:".toList)) with
      | none => readLines u rest
      | some event =>
        if deliverable event then some event else readLines u rest
    else
      readLines u rest

/-- The record (if any) one line decodes to, mirroring exactly the lines
`readLines` lets reach the unmarshal call.  Used to characterise
`readLines` as "first deliverable decoded record". -/
def decodeLine (u : Line → Option Event) (line : Line) : Option Event :=
  if line == [] || hasPrefix line ":".toList then none
  else if hasPrefix line "event:".toList &&
      (trimSpace (trimPrefix line "event:".toList) == "connected".toList) then none
  else if hasPrefix line "data:".toList then
    u (trimSpace (trimPrefix line "data:".toList))
  else none

/-- Whole reader goroutine (listener.go lines 114-153): the one message it
sends.  `scanErr` is `scanner.Err()` after the scan loop ends without a
deliverable record; `none` means clean EOF, producing the
"connection closed without response" error. -/
def readerOutcome (u : Line → Option Event) (lines : List Line)
    (scanErr : Option String) : ReaderMsg :=
  match readLines u lines with
  | some e => ReaderMsg.event e
  | none =>
    match scanErr with
    | some m => ReaderMsg.error m
    | none => ReaderMsg.error "connection closed without response"

/-- One receive of the select loop: which case fired.  A `reminder` carries
the elapsed time `time.Since(startTime)` observed at that tick; `ctxDone`
carries whether `ctx.Err() == context.DeadlineExceeded`. -/
inductive WaitInput where
  | readerMsg : ReaderMsg → WaitInput
  | reminder : Int → WaitInput
  | ctxDone : Bool → WaitInput
deriving DecidableEq, Repr

/-- The terminal outcome of a listen call: the delivered event, or the
error message the Go function returns. -/
inductive Outcome where
  | ok : Event → Outcome
  | err : String → Outcome
deriving DecidableEq, Repr

/-- Observable result of one call: the callback invocations, in order, and
the outcome (`none` = the call is still blocked waiting). -/
structure ListenResult where
  onEventCalls : List Event
  onReminderCalls : List (Int × Int)
  outcome : Option Outcome
deriving DecidableEq, Repr

/-- The select loop of `ListenWithOptions` (listener.go lines 156-181),
run over the sequence of channel receives the select performed.  The
`reminder` case computes `remaining` exactly as lines 168-172 do and
records the `opts.OnReminder(elapsed, remaining)` invocation; the
`eventChan` case records the `opts.OnEvent(event)` invocation when the
callback is non-nil. -/
def waitLoop (opts : ListenOptions) : List WaitInput → ListenResult
  | [] => ⟨[], [], none⟩
  | WaitInput.readerMsg (ReaderMsg.event e) :: _ =>
    ⟨if opts.OnEvent then [e] else [], [], some (Outcome.ok e)⟩
  | WaitInput.readerMsg (ReaderMsg.error m) :: _ =>
    ⟨[], [], some (Outcome.err m)⟩
  | WaitInput.reminder elapsed :: rest =>
    let remaining := opts.Timeout - elapsed
    let remaining := if remaining < 0 then 0 else remaining
    let r := waitLoop opts rest
    ⟨r.onEventCalls, (elapsed, remaining) :: r.onReminderCalls, r.outcome⟩
  | WaitInput.ctxDone deadlineExceeded :: _ =>
    if deadlineExceeded then ⟨[], [], some (Outcome.err "timeout waiting for response")⟩
    else ⟨[], [], some (Outcome.err "cancelled")⟩

/-- Guard of listener.go line 103: the reminder ticker is created only when
`opts.ReminderInterval > 0 && opts.OnReminder != nil`; otherwise
`reminderChan` stays nil and can never be received from. -/
def tickerArmed (opts : ListenOptions) : Bool :=
  decide (0 < opts.ReminderInterval) && opts.OnReminder

/-- Channel semantics constraint on one received input: the reader channels
only ever carry the reader goroutine's message `rmsg`, and a reminder tick
can only be received when the ticker was armed (a nil channel blocks
forever). -/
def validInput (opts : ListenOptions) (rmsg : ReaderMsg) : WaitInput → Bool
  | WaitInput.readerMsg m => m == rmsg
  | WaitInput.reminder _ => tickerArmed opts
  | WaitInput.ctxDone _ => true

/-- A schedule all of whose receives obey the channel semantics. -/
def validSched (opts : ListenOptions) (rmsg : ReaderMsg)
    (sched : List WaitInput) : Bool :=
  sched.all (validInput opts rmsg)

/-- One step of the select: the set of cases that were ready, and the case
the runtime picked.  Go picks uniformly at random among the ready cases,
so the only constraint relating them is membership. -/
structure SelectStep where
  ready : List WaitInput
  pick : WaitInput
deriving DecidableEq, Repr

/-- A select step is admissible when the pick is one of the ready cases and
every ready case obeys the channel semantics. -/
def validStep (opts : ListenOptions) (rmsg : ReaderMsg) (s : SelectStep) : Bool :=
  s.ready.contains s.pick && s.ready.all (validInput opts rmsg)

/-- An admissible execution of the select loop: every step is admissible. -/
def validExec (opts : ListenOptions) (rmsg : ReaderMsg)
    (ex : List SelectStep) : Bool :=
  ex.all (validStep opts rmsg)

/-- Reminder ticks are the only non-terminal select case. -/
def isReminder : WaitInput → Bool
  | WaitInput.reminder _ => true
  | _ => false

/-- The cases whose handler returns from `ListenWithOptions`. -/
def isTerminal (i : WaitInput) : Bool := !(isReminder i)

/-- The outcome the handler of one select case produces (`none` for the
non-terminal reminder case). -/
def stepOutcome : WaitInput → Option Outcome
  | WaitInput.readerMsg (ReaderMsg.event e) => some (Outcome.ok e)
  | WaitInput.readerMsg (ReaderMsg.error m) => some (Outcome.err m)
  | WaitInput.reminder _ => none
  | WaitInput.ctxDone true => some (Outcome.err "timeout waiting for response")
  | WaitInput.ctxDone false => some (Outcome.err "cancelled")

/-- Function `ListenWithOptions` after the HTTP request succeeded (listener.go lines
93-181): classify the response status, then run the wait loop.  `status`
is `resp.StatusCode`, `statusText` is `resp.Status`; `sched` is the
sequence of receives of the select loop. -/
def listenWithOptions (opts : ListenOptions) (status : Nat) (statusText : String)
    (sched : List WaitInput) : ListenResult :=
  if status == 401 then
    ⟨[], [], some (Outcome.err "unauthorized: invalid API key")⟩
  else if status != 200 then
    ⟨[], [], some (Outcome.err ("API error: " ++ statusText))⟩
  else
    waitLoop opts sched

/-- Function `Listen` (listener.go lines 56-61): delegates to `ListenWithOptions`
with a struct literal setting only `Timeout` and `OnEvent`; Go zero-values
the other fields (`ReminderInterval = 0`, `OnReminder = nil`). -/
def listen (timeout : Int) (onEvent : Bool) (status : Nat) (statusText : String)
    (sched : List WaitInput) : ListenResult :=
  listenWithOptions
    { Timeout := timeout, ReminderInterval := 0, OnEvent := onEvent, OnReminder := false }
    status statusText sched

/-- The first record of a list whose `kind`/`type` equals "message" and
whose content is non-empty — the claim's notion of "the first deliverable
record". -/
def firstDeliverable : List Event → Option Event
  | [] => none
  | e :: rest => if deliverable e then some e else firstDeliverable rest

/-- The tie-break property the specification asserts of one select step:
whenever some terminal case is ready, the pick is a terminal case (never a
reminder tick). -/
def tieBreakStep (s : SelectStep) : Bool :=
  !(s.ready.any isTerminal) || isTerminal s.pick

/-- The specification's tie-break property over a whole execution. -/
def tieBreak (ex : List SelectStep) : Bool :=
  ex.all tieBreakStep

/-- A concrete deliverable record, used to instantiate the theorems. -/
def demoEvent : Event :=
  { type := "message", SessionID := "s1", From := "web", Content := "yes", Timestamp := 0 }

/-- A concrete unmarshal oracle: the payload `GOOD` decodes to `demoEvent`,
everything else is malformed JSON. -/
def demoUnmarshal : Line → Option Event :=
  fun s => if s == "GOOD".toList then some demoEvent else none

/-- The scan loop returns exactly the first deliverable record among the
records the stream's lines decode to, in stream order. -/
theorem readLines_eq_firstDeliverable (u : Line → Option Event) (ls : List Line) :
    readLines u ls = firstDeliverable (ls.filterMap (decodeLine u)) := by
  induction ls with
  | nil => rfl
  | cons line rest ih =>
    by_cases h1 : (line == [] || hasPrefix line ":".toList) = true
    · simp only [readLines, decodeLine, h1, if_true, List.filterMap_cons]
      simpa using ih
    · by_cases h2 : (hasPrefix line "event:".toList &&
          (trimSpace (trimPrefix line "event:".toList) == "connected".toList)) = true
      · simp only [readLines, decodeLine, h1, if_false, h2, if_true, List.filterMap_cons]
        simpa [h1] using ih
      · by_cases h3 : hasPrefix line "data:".toList = true
        · simp only [readLines, decodeLine, h1, if_false, h2, h3, if_true,
            List.filterMap_cons]
          cases hu : u (trimSpace (trimPrefix line "data:".toList)) with
          | none => simpa [h1, h2] using ih
          | some ev => simp [firstDeliverable, h1, h2, ih]
        · simp only [readLines, decodeLine, h1, if_false, h2, h3, List.filterMap_cons]
          simpa [h1, h2, h3] using ih

/-- A prefix of reminder ticks changes neither the outcome of the wait
loop nor the on-event invocations: reminders are not terminal. -/
theorem waitLoop_skip_reminders (opts : ListenOptions) (pre rest : List WaitInput)
    (h : ∀ i ∈ pre, isReminder i = true) :
    (waitLoop opts (pre ++ rest)).outcome = (waitLoop opts rest).outcome ∧
    (waitLoop opts (pre ++ rest)).onEventCalls = (waitLoop opts rest).onEventCalls := by
  induction pre with
  | nil => simp
  | cons i pre ih =>
    have hi : isReminder i = true := h i (List.mem_cons_self i pre)
    have hpre : ∀ j ∈ pre, isReminder j = true := fun j hj => h j (List.mem_cons_of_mem i hj)
    cases i with
    | readerMsg m => simp [isReminder] at hi
    | ctxDone b => simp [isReminder] at hi
    | reminder t =>
      have := ih hpre
      simp only [List.cons_append, waitLoop]
      exact ⟨this.1, this.2⟩

/-- A terminal select case determines the whole result by itself: the rest
of the schedule after it is never examined. -/
theorem waitLoop_terminal_head (opts : ListenOptions) (t : WaitInput)
    (post : List WaitInput) (ht : isTerminal t = true) :
    waitLoop opts (t :: post) = waitLoop opts [t] := by
  cases t with
  | readerMsg m => cases m <;> rfl
  | reminder e => simp [isTerminal, isReminder] at ht
  | ctxDone b => rfl

/-- With the ticker unarmed, an admissible schedule can contain no reminder
receive, so the wait loop records no on-reminder invocation. -/
theorem waitLoop_no_reminderCalls (opts : ListenOptions) (rmsg : ReaderMsg)
    (sched : List WaitInput) (hguard : tickerArmed opts = false)
    (hv : validSched opts rmsg sched = true) :
    (waitLoop opts sched).onReminderCalls = [] := by
  induction sched with
  | nil => rfl
  | cons i rest ih =>
    rw [validSched, List.all_cons, Bool.and_eq_true] at hv
    cases i with
    | readerMsg m => cases m <;> rfl
    | reminder e =>
      rw [show validInput opts rmsg (WaitInput.reminder e) = tickerArmed opts from rfl,
        hguard] at hv
      exact absurd hv.1 (by simp)
    | ctxDone b => cases b <;> simp [waitLoop]

/-- Arithmetic of one reminder tick, as computed on listener.go lines
168-172: the recorded pair satisfies the max/flooring equations. -/
theorem waitLoop_reminder_arith (opts : ListenOptions) (sched : List WaitInput)
    (elapsed remaining : Int)
    (hmem : (elapsed, remaining) ∈ (waitLoop opts sched).onReminderCalls) :
    remaining = max 0 (opts.Timeout - elapsed) := by
  induction sched with
  | nil => simp [waitLoop] at hmem
  | cons i rest ih =>
    cases i with
    | readerMsg m => cases m <;> simp [waitLoop] at hmem
    | ctxDone b => cases b <;> simp [waitLoop] at hmem
    | reminder e =>
      simp only [waitLoop, List.mem_cons] at hmem
      rcases hmem with heq | hmem
      · rcases heq with ⟨rfl, rfl⟩
        by_cases hc : opts.Timeout - elapsed < 0
        · simp [hc]
          omega
        · simp [hc]
          omega
      · exact ih hmem

/-- C9: `Listen(ctx, sessionID, timeout, onEvent)` returns exactly the
result of `ListenWithOptions(ctx, sessionID, opts)` with
`opts = {Timeout = timeout, OnEvent = onEvent, ReminderInterval = 0,
OnReminder = nil}`: the convenience call is the options call with
reminders disabled. -/
theorem C9_listen_refines_listenWithOptions (timeout : Int) (onEvent : Bool)
    (status : Nat) (statusText : String) (sched : List WaitInput) :
    listen timeout onEvent status statusText sched =
      listenWithOptions
        { Timeout := timeout, ReminderInterval := 0, OnEvent := onEvent, OnReminder := false }
        status statusText sched := rfl

/-- C4 counterexample: status 204 is a 2xx status, yet the code compares
against 200 only, so instead of entering the read loop (which here would
deliver `demoEvent`) the call fails with the `API error:` transport
failure. -/
theorem C4_counterexample :
    (200 ≤ 204 ∧ 204 < 300) ∧
    listenWithOptions { Timeout := 100, ReminderInterval := 0, OnEvent := true, OnReminder := false }
        204 "204 No Content" [WaitInput.readerMsg (ReaderMsg.event demoEvent)]
      = ⟨[], [], some (Outcome.err "API error: 204 No Content")⟩ ∧
    (waitLoop { Timeout := 100, ReminderInterval := 0, OnEvent := true, OnReminder := false }
        [WaitInput.readerMsg (ReaderMsg.event demoEvent)]).outcome
      = some (Outcome.ok demoEvent) ∧
    listenWithOptions { Timeout := 100, ReminderInterval := 0, OnEvent := true, OnReminder := false }
        204 "204 No Content" [WaitInput.readerMsg (ReaderMsg.event demoEvent)]
      ≠ waitLoop { Timeout := 100, ReminderInterval := 0, OnEvent := true, OnReminder := false }
        [WaitInput.readerMsg (ReaderMsg.event demoEvent)] := by
  refine ⟨⟨by decide, by decide⟩, by decide, by decide, by decide⟩

/-- C4 (amended): the status is classified before any stream data is read:
401 short-circuits with the unauthorized failure for every schedule and
every option set (in particular every timeout); every other non-**200**
status (not non-2xx) fails with `API error:` plus the status text; exactly
status 200 enters the read loop. -/
theorem C4_status_classification (opts : ListenOptions) (status : Nat)
    (statusText : String) (sched : List WaitInput)
    (h401 : status ≠ 401) (h200 : status ≠ 200) :
    listenWithOptions opts 401 statusText sched
      = ⟨[], [], some (Outcome.err "unauthorized: invalid API key")⟩ ∧
    listenWithOptions opts status statusText sched
      = ⟨[], [], some (Outcome.err ("API error: " ++ statusText))⟩ ∧
    listenWithOptions opts 200 statusText sched = waitLoop opts sched := by
  refine ⟨rfl, ?_, rfl⟩
  have h1 : (status == 401) = false := by simp [h401]
  have h2 : (status != 200) = true := by simp [h200]
  simp [listenWithOptions, h1, h2]

/-- C4 witness: the classification theorem applied at status 500. -/
theorem C4_status_classification_witness :
    listenWithOptions { Timeout := 100, ReminderInterval := 0, OnEvent := true, OnReminder := false }
        401 "500 Internal Server Error" []
      = ⟨[], [], some (Outcome.err "unauthorized: invalid API key")⟩ ∧
    listenWithOptions { Timeout := 100, ReminderInterval := 0, OnEvent := true, OnReminder := false }
        500 "500 Internal Server Error" []
      = ⟨[], [], some (Outcome.err ("API error: " ++ "500 Internal Server Error"))⟩ ∧
    listenWithOptions { Timeout := 100, ReminderInterval := 0, OnEvent := true, OnReminder := false }
        200 "500 Internal Server Error" []
      = waitLoop { Timeout := 100, ReminderInterval := 0, OnEvent := true, OnReminder := false } [] :=
  C4_status_classification _ 500 _ [] (by decide) (by decide)

/-- C2 counterexample: two calls configured with different timeouts (5 and
7 nanoseconds) that both hit the deadline return byte-for-byte the same
failure, the constant message "timeout waiting for response"; hence no
function can read the configured timeout value back out of the returned
failure, contradicting "carries the original configured timeout value". -/
theorem C2_counterexample :
    listenWithOptions { Timeout := 5, ReminderInterval := 0, OnEvent := true, OnReminder := false }
        200 "200 OK" [WaitInput.ctxDone true]
      = listenWithOptions { Timeout := 7, ReminderInterval := 0, OnEvent := true, OnReminder := false }
        200 "200 OK" [WaitInput.ctxDone true] ∧
    ¬ ∃ f : ListenResult → Int, ∀ tmo : Int,
        f (listenWithOptions { Timeout := tmo, ReminderInterval := 0, OnEvent := true, OnReminder := false }
            200 "200 OK" [WaitInput.ctxDone true]) = tmo := by
  refine ⟨by decide, ?_⟩
  rintro ⟨f, hf⟩
  have h5 := hf 5
  have h7 := hf 7
  have heq : listenWithOptions { Timeout := 5, ReminderInterval := 0, OnEvent := true, OnReminder := false }
        200 "200 OK" [WaitInput.ctxDone true]
      = listenWithOptions { Timeout := 7, ReminderInterval := 0, OnEvent := true, OnReminder := false }
        200 "200 OK" [WaitInput.ctxDone true] := by decide
  rw [heq, h7] at h5
  exact absurd h5 (by decide)

/-- C2 (amended): when the deadline fires before any deliverable record
(the select loop sees only reminder ticks and then the expired context),
the call returns the Timeout failure — the fixed message
"timeout waiting for response", which does not embed the configured
timeout value — and the on-event callback is never invoked; this holds for
every configured timeout. -/
theorem C2_timeout_result (opts : ListenOptions) (statusText : String)
    (pre post : List WaitInput)
    (hpre : ∀ i ∈ pre, isReminder i = true) :
    (listenWithOptions opts 200 statusText (pre ++ WaitInput.ctxDone true :: post)).outcome
      = some (Outcome.err "timeout waiting for response") ∧
    (listenWithOptions opts 200 statusText (pre ++ WaitInput.ctxDone true :: post)).onEventCalls
      = [] := by
  have hred : listenWithOptions opts 200 statusText (pre ++ WaitInput.ctxDone true :: post)
      = waitLoop opts (pre ++ WaitInput.ctxDone true :: post) := rfl
  obtain ⟨ho, he⟩ := waitLoop_skip_reminders opts pre (WaitInput.ctxDone true :: post) hpre
  rw [hred, ho, he]
  exact ⟨rfl, rfl⟩

/-- C2 witness: the amended timeout theorem applied with a reminder tick
before the deadline and timeout 100. -/
theorem C2_timeout_result_witness :
    (listenWithOptions { Timeout := 100, ReminderInterval := 10, OnEvent := true, OnReminder := true }
        200 "200 OK" ([WaitInput.reminder 30] ++ WaitInput.ctxDone true :: [])).outcome
      = some (Outcome.err "timeout waiting for response") ∧
    (listenWithOptions { Timeout := 100, ReminderInterval := 10, OnEvent := true, OnReminder := true }
        200 "200 OK" ([WaitInput.reminder 30] ++ WaitInput.ctxDone true :: [])).onEventCalls
      = [] :=
  C2_timeout_result _ _ [WaitInput.reminder 30] [] (by decide)

/-- C5: when the stream closes cleanly before any deliverable record (the
scan loop exhausts the lines with no deliverable record and
`scanner.Err()` is nil) and the reader's message is received before the
deadline and before cancellation, the call fails with
"connection closed without response" — a failure distinct from the
timeout failure — and the on-event callback is never invoked. -/
theorem C5_stream_closed (u : Line → Option Event) (opts : ListenOptions)
    (statusText : String) (lines : List Line) (pre post : List WaitInput)
    (hpre : ∀ i ∈ pre, isReminder i = true)
    (hnone : readLines u lines = none) :
    (listenWithOptions opts 200 statusText
        (pre ++ WaitInput.readerMsg (readerOutcome u lines none) :: post)).outcome
      = some (Outcome.err "connection closed without response") ∧
    Outcome.err "connection closed without response"
      ≠ Outcome.err "timeout waiting for response" ∧
    (listenWithOptions opts 200 statusText
        (pre ++ WaitInput.readerMsg (readerOutcome u lines none) :: post)).onEventCalls
      = [] := by
  have hmsg : readerOutcome u lines none
      = ReaderMsg.error "connection closed without response" := by
    simp [readerOutcome, hnone]
  have hred : listenWithOptions opts 200 statusText
        (pre ++ WaitInput.readerMsg (readerOutcome u lines none) :: post)
      = waitLoop opts (pre ++ WaitInput.readerMsg (readerOutcome u lines none) :: post) := rfl
  rw [hred, hmsg]
  obtain ⟨ho, he⟩ := waitLoop_skip_reminders opts pre
    (WaitInput.readerMsg (ReaderMsg.error "connection closed without response") :: post) hpre
  rw [ho, he]
  exact ⟨rfl, by decide, rfl⟩

/-- C5 witness: a stream carrying only the connected record and a
non-deliverable data line, closing cleanly. -/
theorem C5_stream_closed_witness :
    (listenWithOptions { Timeout := 100, ReminderInterval := 0, OnEvent := true, OnReminder := false }
        200 "200 OK"
        ([] ++ WaitInput.readerMsg
          (readerOutcome demoUnmarshal ["event: connected".toList, "data:bad".toList] none) :: [])).outcome
      = some (Outcome.err "connection closed without response") ∧
    Outcome.err "connection closed without response"
      ≠ Outcome.err "timeout waiting for response" ∧
    (listenWithOptions { Timeout := 100, ReminderInterval := 0, OnEvent := true, OnReminder := false }
        200 "200 OK"
        ([] ++ WaitInput.readerMsg
          (readerOutcome demoUnmarshal ["event: connected".toList, "data:bad".toList] none) :: [])).onEventCalls
      = [] :=
  C5_stream_closed demoUnmarshal _ _ ["event: connected".toList, "data:bad".toList] [] []
    (by simp) (by decide)

/-- C7: if the reminder interval is not positive or the on-reminder
callback is nil, the ticker is never created (no reminder timer is
scheduled), so over every schedule admissible for the resulting nil
reminder channel the on-reminder callback is never invoked, whatever the
status and however much time the schedule spans; the call itself proceeds
normally. -/
theorem C7_reminders_disabled (opts : ListenOptions) (status : Nat)
    (statusText : String) (rmsg : ReaderMsg) (sched : List WaitInput)
    (hoff : opts.ReminderInterval ≤ 0 ∨ opts.OnReminder = false)
    (hv : validSched opts rmsg sched = true) :
    tickerArmed opts = false ∧
    (listenWithOptions opts status statusText sched).onReminderCalls = [] := by
  have hguard : tickerArmed opts = false := by
    rcases hoff with h | h
    · have hlt : ¬ (0 < opts.ReminderInterval) := by omega
      simp [tickerArmed, hlt]
    · simp [tickerArmed, h]
  refine ⟨hguard, ?_⟩
  unfold listenWithOptions
  split
  · rfl
  · split
    · rfl
    · exact waitLoop_no_reminderCalls opts rmsg sched hguard hv

/-- C7 witness: interval 10 set but on-reminder nil; a schedule that waits
through a tickless stretch and then hits the deadline. -/
theorem C7_reminders_disabled_witness :
    tickerArmed { Timeout := 100, ReminderInterval := 10, OnEvent := true, OnReminder := false } = false ∧
    (listenWithOptions { Timeout := 100, ReminderInterval := 10, OnEvent := true, OnReminder := false }
        200 "200 OK" [WaitInput.ctxDone true]).onReminderCalls = [] :=
  C7_reminders_disabled _ 200 _ (ReaderMsg.error "x") [WaitInput.ctxDone true]
    (Or.inr rfl) (by decide)

/-- C8: every recorded on-reminder invocation `(elapsed, remaining)`
satisfies `remaining = max 0 (timeout - elapsed)`; hence
`elapsed + remaining = timeout` whenever `elapsed ≤ timeout`, and
`remaining = 0` whenever `elapsed > timeout` — remaining is never
negative. -/
theorem C8_reminder_tick_arithmetic (opts : ListenOptions) (statusText : String)
    (sched : List WaitInput) (elapsed remaining : Int)
    (hmem : (elapsed, remaining)
      ∈ (listenWithOptions opts 200 statusText sched).onReminderCalls) :
    remaining = max 0 (opts.Timeout - elapsed) ∧
    (elapsed ≤ opts.Timeout → elapsed + remaining = opts.Timeout) ∧
    (opts.Timeout < elapsed → remaining = 0) := by
  have hmem' : (elapsed, remaining) ∈ (waitLoop opts sched).onReminderCalls := hmem
  have h := waitLoop_reminder_arith opts sched elapsed remaining hmem'
  refine ⟨h, ?_, ?_⟩
  · intro hc
    have hmax : max 0 (opts.Timeout - elapsed) = opts.Timeout - elapsed :=
      max_eq_right (by omega)
    rw [hmax] at h
    omega
  · intro hc
    have hmax : max 0 (opts.Timeout - elapsed) = 0 := max_eq_left (by omega)
    rw [hmax] at h
    omega

/-- C8 witness: timeout 100, one tick at elapsed 30 then one late tick at
elapsed 120 whose remaining is floored to 0. -/
theorem C8_reminder_tick_arithmetic_witness :
    ((30 : Int), (70 : Int))
      ∈ (listenWithOptions { Timeout := 100, ReminderInterval := 10, OnEvent := true, OnReminder := true }
          200 "200 OK"
          [WaitInput.reminder 30, WaitInput.reminder 120, WaitInput.ctxDone true]).onReminderCalls ∧
    (70 : Int) = max 0 ((100 : Int) - 30) ∧
    ((30 : Int) ≤ (100 : Int) → (30 : Int) + 70 = 100) ∧
    ((100 : Int) < (30 : Int) → (70 : Int) = 0) := by
  refine ⟨by decide, ?_⟩
  have h := C8_reminder_tick_arithmetic
    { Timeout := 100, ReminderInterval := 10, OnEvent := true, OnReminder := true }
    "200 OK" [WaitInput.reminder 30, WaitInput.reminder 120, WaitInput.ctxDone true]
    30 70 (by decide)
  simp only at h
  exact h

/-- C10: with a nil on-event callback, a deliverable record is still
returned as the successful outcome, with no callback invocation — the
nil check on line 159 guards the call, so nil `OnEvent` is a supported
input. -/
theorem C10_nil_onEvent_supported (u : Line → Option Event) (opts : ListenOptions)
    (statusText : String) (lines : List Line) (scanErr : Option String)
    (pre post : List WaitInput) (e : Event)
    (hOn : opts.OnEvent = false)
    (hpre : ∀ i ∈ pre, isReminder i = true)
    (hread : readLines u lines = some e) :
    (listenWithOptions opts 200 statusText
        (pre ++ WaitInput.readerMsg (readerOutcome u lines scanErr) :: post)).outcome
      = some (Outcome.ok e) ∧
    (listenWithOptions opts 200 statusText
        (pre ++ WaitInput.readerMsg (readerOutcome u lines scanErr) :: post)).onEventCalls
      = [] := by
  have hmsg : readerOutcome u lines scanErr = ReaderMsg.event e := by
    simp [readerOutcome, hread]
  have hred : listenWithOptions opts 200 statusText
        (pre ++ WaitInput.readerMsg (readerOutcome u lines scanErr) :: post)
      = waitLoop opts (pre ++ WaitInput.readerMsg (readerOutcome u lines scanErr) :: post) := rfl
  rw [hred, hmsg]
  obtain ⟨ho, he⟩ := waitLoop_skip_reminders opts pre
    (WaitInput.readerMsg (ReaderMsg.event e) :: post) hpre
  rw [ho, he]
  exact ⟨rfl, by simp [waitLoop, hOn]⟩

/-- C10 witness: nil on-event, deliverable record `demoEvent` on the
stream. -/
theorem C10_nil_onEvent_supported_witness :
    (listenWithOptions { Timeout := 100, ReminderInterval := 0, OnEvent := false, OnReminder := false }
        200 "200 OK"
        ([] ++ WaitInput.readerMsg (readerOutcome demoUnmarshal ["data:GOOD".toList] none) :: [])).outcome
      = some (Outcome.ok demoEvent) ∧
    (listenWithOptions { Timeout := 100, ReminderInterval := 0, OnEvent := false, OnReminder := false }
        200 "200 OK"
        ([] ++ WaitInput.readerMsg (readerOutcome demoUnmarshal ["data:GOOD".toList] none) :: [])).onEventCalls
      = [] :=
  C10_nil_onEvent_supported demoUnmarshal _ _ ["data:GOOD".toList] none [] [] demoEvent
    rfl (by simp) (by decide)

/-- C1: when the reader's message is received before the deadline and
before cancellation and an on-event callback is installed, the call
returns event `e` as its successful outcome with the on-event callback
invoked exactly once with `e` if and only if `e` is the first decoded
record of the stream whose `type` is "message" and whose content is
non-empty; every other decoded record is discarded without being returned
and without a callback invocation. -/
theorem C1_returns_first_deliverable (u : Line → Option Event) (opts : ListenOptions)
    (statusText : String) (lines : List Line) (scanErr : Option String)
    (pre post : List WaitInput) (e : Event)
    (hOn : opts.OnEvent = true)
    (hpre : ∀ i ∈ pre, isReminder i = true) :
    ((listenWithOptions opts 200 statusText
        (pre ++ WaitInput.readerMsg (readerOutcome u lines scanErr) :: post)).outcome
        = some (Outcome.ok e) ∧
     (listenWithOptions opts 200 statusText
        (pre ++ WaitInput.readerMsg (readerOutcome u lines scanErr) :: post)).onEventCalls
        = [e])
    ↔ firstDeliverable (lines.filterMap (decodeLine u)) = some e := by
  have hred : listenWithOptions opts 200 statusText
        (pre ++ WaitInput.readerMsg (readerOutcome u lines scanErr) :: post)
      = waitLoop opts (pre ++ WaitInput.readerMsg (readerOutcome u lines scanErr) :: post) := rfl
  obtain ⟨ho, he⟩ := waitLoop_skip_reminders opts pre
    (WaitInput.readerMsg (readerOutcome u lines scanErr) :: post) hpre
  rw [hred, ho, he, ← readLines_eq_firstDeliverable]
  cases hr : readLines u lines with
  | some ev =>
    have hmsg : readerOutcome u lines scanErr = ReaderMsg.event ev := by
      simp [readerOutcome, hr]
    rw [hmsg]
    simp [waitLoop, hOn]
  | none =>
    have hmsg : ∃ m, readerOutcome u lines scanErr = ReaderMsg.error m := by
      cases scanErr with
      | none =>
        exact ⟨"connection closed without response", by simp [readerOutcome, hr]⟩
      | some m => exact ⟨m, by simp [readerOutcome, hr]⟩
    obtain ⟨m, hmsg⟩ := hmsg
    rw [hmsg]
    simp [waitLoop]

/-- C1 witness: a stream whose second data line carries the first (and
only) deliverable record. -/
theorem C1_returns_first_deliverable_witness :
    ((listenWithOptions { Timeout := 100, ReminderInterval := 0, OnEvent := true, OnReminder := false }
        200 "200 OK"
        ([] ++ WaitInput.readerMsg
          (readerOutcome demoUnmarshal ["data:bad".toList, "data: GOOD".toList] none) :: [])).outcome
        = some (Outcome.ok demoEvent) ∧
     (listenWithOptions { Timeout := 100, ReminderInterval := 0, OnEvent := true, OnReminder := false }
        200 "200 OK"
        ([] ++ WaitInput.readerMsg
          (readerOutcome demoUnmarshal ["data:bad".toList, "data: GOOD".toList] none) :: [])).onEventCalls
        = [demoEvent])
    ↔ firstDeliverable (["data:bad".toList, "data: GOOD".toList].filterMap (decodeLine demoUnmarshal))
        = some demoEvent :=
  C1_returns_first_deliverable demoUnmarshal _ _ ["data:bad".toList, "data: GOOD".toList]
    none [] [] demoEvent rfl (by simp)

/-- C6: a `data:` line whose payload the unmarshal oracle rejects is
skipped — the scan continues on the remaining lines — and a deliverable
record decoded from a later line of the same stream is still returned as
the successful outcome. -/
theorem C6_malformed_json_skipped (u : Line → Option Event) (opts : ListenOptions)
    (statusText : String) (line : Line) (rest : List Line) (scanErr : Option String)
    (pre post : List WaitInput) (e : Event)
    (hdata : hasPrefix line "data:".toList = true)
    (hmal : u (trimSpace (trimPrefix line "data:".toList)) = none)
    (hpre : ∀ i ∈ pre, isReminder i = true)
    (hgood : readLines u rest = some e) :
    readLines u (line :: rest) = readLines u rest ∧
    (listenWithOptions opts 200 statusText
        (pre ++ WaitInput.readerMsg (readerOutcome u (line :: rest) scanErr) :: post)).outcome
      = some (Outcome.ok e) := by
  have hskip : readLines u (line :: rest) = readLines u rest := by
    have hpref : "data:".toList <+: line := by
      rw [hasPrefix] at hdata
      exact List.isPrefixOf_iff_prefix.mp hdata
    obtain ⟨t, rfl⟩ := hpref
    rw [readLines]
    have hd : "data:".toList = ['d', 'a', 't', 'a', ':'] := rfl
    have hc : ":".toList = [':'] := rfl
    have hev : "event:".toList = ['e', 'v', 'e', 'n', 't', ':'] := rfl
    rw [hd] at hmal ⊢
    simp only [List.cons_append, List.nil_append] at hmal
    simp only [hc, hev, hasPrefix, List.cons_append, List.isPrefixOf,
      List.isPrefixOf_nil_left]
    simp [hmal]
  refine ⟨hskip, ?_⟩
  have hread : readLines u (line :: rest) = some e := hskip.trans hgood
  have hmsg : readerOutcome u (line :: rest) scanErr = ReaderMsg.event e := by
    simp [readerOutcome, hread]
  have hred : listenWithOptions opts 200 statusText
        (pre ++ WaitInput.readerMsg (readerOutcome u (line :: rest) scanErr) :: post)
      = waitLoop opts (pre ++ WaitInput.readerMsg (readerOutcome u (line :: rest) scanErr) :: post) := rfl
  rw [hred, hmsg]
  obtain ⟨ho, he⟩ := waitLoop_skip_reminders opts pre
    (WaitInput.readerMsg (ReaderMsg.event e) :: post) hpre
  rw [ho]
  rfl

/-- C6 witness: a malformed payload followed by the deliverable record. -/
theorem C6_malformed_json_skipped_witness :
    readLines demoUnmarshal ["data:notjson".toList, "data: GOOD".toList]
      = readLines demoUnmarshal ["data: GOOD".toList] ∧
    (listenWithOptions { Timeout := 100, ReminderInterval := 0, OnEvent := true, OnReminder := false }
        200 "200 OK"
        ([] ++ WaitInput.readerMsg
          (readerOutcome demoUnmarshal ["data:notjson".toList, "data: GOOD".toList] none) :: [])).outcome
      = some (Outcome.ok demoEvent) :=
  C6_malformed_json_skipped demoUnmarshal _ _ "data:notjson".toList ["data: GOOD".toList]
    none [] [] demoEvent (by decide) (by decide) (by simp) (by decide)

/-- Once the wait loop reaches a terminal receive, nothing after it is
examined: the result over `pre ++ t :: post` (with `pre` reminder ticks
and `t` terminal) equals the result over `pre ++ [t]`. -/
theorem waitLoop_stops_at_terminal (opts : ListenOptions) (pre post : List WaitInput)
    (t : WaitInput) (hpre : ∀ i ∈ pre, isReminder i = true)
    (ht : isTerminal t = true) :
    waitLoop opts (pre ++ t :: post) = waitLoop opts (pre ++ [t]) := by
  induction pre with
  | nil => simpa using waitLoop_terminal_head opts t post ht
  | cons i pre ih =>
    have hi : isReminder i = true := hpre i (List.mem_cons_self i pre)
    have hpre' : ∀ j ∈ pre, isReminder j = true := fun j hj =>
      hpre j (List.mem_cons_of_mem i hj)
    cases i with
    | readerMsg m => simp [isReminder] at hi
    | ctxDone b => simp [isReminder] at hi
    | reminder e =>
      simp only [List.cons_append, waitLoop, List.append_eq]
      rw [ih hpre']

/-- C3 counterexample: the claim that a simultaneously ready terminal
condition is always chosen over a reminder tick is false under Go's
select semantics (uniform pseudo-random choice among ready cases): the
one-step execution whose ready set holds both the expired context and a
reminder tick, and whose pick is the reminder tick, is admissible yet
picks the non-terminal case. -/
theorem C3_tie_break_counterexample :
    ¬ (∀ ex : List SelectStep,
        validExec { Timeout := 100, ReminderInterval := 10, OnEvent := true, OnReminder := true }
          (ReaderMsg.error "connection closed without response") ex = true →
        tieBreak ex = true) := by
  intro h
  have hx := h [⟨[WaitInput.ctxDone true, WaitInput.reminder 5], WaitInput.reminder 5⟩]
    (by decide)
  exact absurd hx (by decide)

/-- C3 (amended): exactly one terminal branch fires — the wait loop
returns at the first terminal receive, with the outcome that receive's
handler produces, and nothing after it (and no further callback) is
processed.  When a terminal case and a reminder tick are simultaneously
ready, Go's select may pick either; a picked reminder tick is
non-terminal, so the loop continues and the first terminal receive still
alone determines the outcome. -/
theorem C3_single_terminal_branch (opts : ListenOptions) (pre post : List WaitInput)
    (t : WaitInput) (hpre : ∀ i ∈ pre, isReminder i = true)
    (ht : isTerminal t = true) :
    waitLoop opts (pre ++ t :: post) = waitLoop opts (pre ++ [t]) ∧
    (waitLoop opts (pre ++ t :: post)).outcome = stepOutcome t ∧
    stepOutcome t ≠ none := by
  refine ⟨waitLoop_stops_at_terminal opts pre post t hpre ht, ?_, ?_⟩
  · rw [(waitLoop_skip_reminders opts pre (t :: post) hpre).1]
    cases t with
    | readerMsg m => cases m <;> rfl
    | reminder e => simp [isTerminal, isReminder] at ht
    | ctxDone b => cases b <;> rfl
  · cases t with
    | readerMsg m => cases m <;> simp [stepOutcome]
    | reminder e => simp [isTerminal, isReminder] at ht
    | ctxDone b => cases b <;> simp [stepOutcome]

/-- C3 witness: a reminder tick, then the expired deadline, then receives
that are never reached. -/
theorem C3_single_terminal_branch_witness :
    waitLoop { Timeout := 100, ReminderInterval := 10, OnEvent := true, OnReminder := true }
        ([WaitInput.reminder 5] ++ WaitInput.ctxDone true :: [WaitInput.reminder 9])
      = waitLoop { Timeout := 100, ReminderInterval := 10, OnEvent := true, OnReminder := true }
        ([WaitInput.reminder 5] ++ [WaitInput.ctxDone true]) ∧
    (waitLoop { Timeout := 100, ReminderInterval := 10, OnEvent := true, OnReminder := true }
        ([WaitInput.reminder 5] ++ WaitInput.ctxDone true :: [WaitInput.reminder 9])).outcome
      = stepOutcome (WaitInput.ctxDone true) ∧
    stepOutcome (WaitInput.ctxDone true) ≠ none :=
  C3_single_terminal_branch _ [WaitInput.reminder 5] [WaitInput.reminder 9]
    (WaitInput.ctxDone true) (by decide) (by decide)
